import Mathlib

/-!
Verification of the organisations directory service: a shallow embedding of
the activity-hierarchy resolver, the depth validator, the geo search, and
the generic repository (fetch_many / update), with theorems settling the
specification claims against the code.
-/

set_option maxHeartbeats 1000000

namespace Organisations

/-! ## Activity rows (app/models.py, class Activity)

A stored `activity` row: primary key `uuid`, a `name`, and a nullable
self-referential foreign key `parent_uuid`.  UUIDs are modelled as `Nat`. -/

structure ActivityRow where
  uuid : Nat
  name : String
  parent_uuid : Option Nat
deriving DecidableEq, Repr

/-- The `SELECT ... WHERE activity.parent_uuid = :a` query issued inside
`_get_activities_from_parent` (app/views.py): the direct children rows. -/
def childrenOf (db : List ActivityRow) (a : Nat) : List ActivityRow :=
  db.filter (fun r => r.parent_uuid == some a)

/-- The `SELECT ... WHERE activity.uuid = :a` lookup followed by
`.first()` inside `_get_activities_from_parent` (app/views.py). -/
def findActivity (db : List ActivityRow) (a : Nat) : Option ActivityRow :=
  db.find? (fun r => r.uuid == a)

/-- The `for child in children:` loop body of `_get_activities_from_parent`
(app/views.py): each child is expanded by the recursive call `f child.uuid`
and the result is accumulated with `activities.update(...)`.  `none`
propagates a recursive call that does not complete. -/
def expandChildren (f : Nat → Option (Finset Nat)) :
    List ActivityRow → Finset Nat → Option (Finset Nat)
  | [], acc => some acc
  | c :: cs, acc =>
    match f c.uuid with
    | none => none
    | some sc => expandChildren f cs (acc ∪ sc)

/-- `_get_activities_from_parent(activity_uuid)` (app/views.py, lines
142-165), instrumented with fuel: the Python code resolves the activity
(returning the empty set when the uuid does not resolve), seeds the result
set with the activity itself, and unions in the recursive expansion of
every direct child.  The source contains no visited set; `none` models a
call whose recursion does not bottom out within `fuel` nested calls. -/
def expandFuel : Nat → List ActivityRow → Nat → Option (Finset Nat)
  | 0, _, _ => none
  | fuel + 1, db, a =>
    match findActivity db a with
    | none => some (∅ : Finset Nat)
    | some _ => expandChildren (fun u => expandFuel fuel db u) (childrenOf db a) {a}

/-- A descendant-depth measure certifying that the stored parent/child graph
is acyclic: every child is strictly smaller than its parent under `d`. -/
def measureOk (db : List ActivityRow) (d : Nat → Nat) : Bool :=
  db.all (fun r =>
    match r.parent_uuid with
    | none => true
    | some p => d r.uuid < d p)

/-! ### Helper lemmas about the expansion -/

theorem expandChildren_mem (f : Nat → Option (Finset Nat)) :
    ∀ (cs : List ActivityRow) (acc s : Finset Nat),
      expandChildren f cs acc = some s →
      ∀ x : Nat, x ∈ s ↔ x ∈ acc ∨ ∃ c ∈ cs, ∃ sc, f c.uuid = some sc ∧ x ∈ sc := by
  intro cs
  induction cs with
  | nil =>
    intro acc s h x
    simp only [expandChildren, Option.some.injEq] at h
    subst h
    simp
  | cons c cs ih =>
    intro acc s h x
    simp only [expandChildren] at h
    cases hc : f c.uuid with
    | none => rw [hc] at h; exact absurd h (by simp)
    | some sc =>
      rw [hc] at h
      have := ih (acc ∪ sc) s h x
      rw [this]
      constructor
      · rintro (hx | ⟨c', hc', sc', hsc', hx⟩)
        · rcases Finset.mem_union.mp hx with hx | hx
          · exact Or.inl hx
          · exact Or.inr ⟨c, by simp, sc, hc, hx⟩
        · exact Or.inr ⟨c', by simp [hc'], sc', hsc', hx⟩
      · rintro (hx | ⟨c', hc', sc', hsc', hx⟩)
        · exact Or.inl (Finset.mem_union_left _ hx)
        · rcases List.mem_cons.mp hc' with rfl | hc'
          · rw [hc] at hsc'
            cases hsc'
            exact Or.inl (Finset.mem_union_right _ hx)
          · exact Or.inr ⟨c', hc', sc', hsc', hx⟩

theorem expandChildren_total (f : Nat → Option (Finset Nat)) :
    ∀ (cs : List ActivityRow) (acc : Finset Nat),
      (∀ c ∈ cs, ∃ sc, f c.uuid = some sc) →
      ∃ s, expandChildren f cs acc = some s := by
  intro cs
  induction cs with
  | nil => intro acc _; exact ⟨acc, rfl⟩
  | cons c cs ih =>
    intro acc h
    obtain ⟨sc, hsc⟩ := h c (by simp)
    obtain ⟨s, hs⟩ := ih (acc ∪ sc) (fun c' hc' => h c' (by simp [hc']))
    exact ⟨s, by simp only [expandChildren, hsc]; exact hs⟩

theorem measureOk_child {db : List ActivityRow} {d : Nat → Nat}
    (h : measureOk db d = true) {c : ActivityRow} {a : Nat}
    (hc : c ∈ childrenOf db a) : d c.uuid < d a := by
  rcases List.mem_filter.mp hc with ⟨hmem, hpar⟩
  have := List.all_eq_true.mp h c hmem
  simp only [beq_iff_eq] at hpar
  rw [hpar] at this
  exact of_decide_eq_true this

/-- Termination of the expansion on any stored graph admitting an acyclic
depth measure: fuel exceeding the measure of the queried uuid suffices. -/
theorem expandFuel_total (db : List ActivityRow) (d : Nat → Nat)
    (h : measureOk db d = true) :
    ∀ (fuel a : Nat), d a < fuel → ∃ s, expandFuel fuel db a = some s := by
  intro fuel
  induction fuel using Nat.strong_induction_on with
  | _ fuel ih =>
    intro a ha
    match fuel, ha with
    | fuel + 1, ha =>
      cases hf : findActivity db a with
      | none => exact ⟨∅, by simp [expandFuel, hf]⟩
      | some r =>
        have hch : ∀ c ∈ childrenOf db a, ∃ sc, expandFuel fuel db c.uuid = some sc := by
          intro c hc
          have hlt : d c.uuid < d a := measureOk_child h hc
          exact ih fuel (Nat.lt_succ_self _) c.uuid (Nat.lt_of_lt_of_le hlt (Nat.lt_succ_iff.mp ha))
        obtain ⟨s, hs⟩ :=
          expandChildren_total (fun u => expandFuel fuel db u) (childrenOf db a) {a} hch
        exact ⟨s, by simp only [expandFuel, hf]; exact hs⟩

/-! ### Concrete stored graphs -/

/-- A pathological stored graph holding a 2-cycle: activity 1 is the parent
of activity 2 and activity 2 is the parent of activity 1, so activity 1 is
reachable from itself via child links. -/
def cycDB : List ActivityRow := [⟨1, "a", some 2⟩, ⟨2, "b", some 1⟩]

/-- A 3-level stored forest: root 1, children 2 and 3, grandchildren 4 and 5
under node 2. -/
def forest3 : List ActivityRow :=
  [⟨1, "root", none⟩, ⟨2, "c1", some 1⟩, ⟨3, "c2", some 1⟩,
   ⟨4, "g1", some 2⟩, ⟨5, "g2", some 2⟩]

/-- An acyclicity measure for `forest3`: remaining height of each node. -/
def forestMeasure : Nat → Nat :=
  fun u => if u = 1 then 2 else if u = 2 ∨ u = 3 then 1 else 0

theorem expandFuel_cycDB_none :
    ∀ n, expandFuel n cycDB 1 = none ∧ expandFuel n cycDB 2 = none := by
  intro n
  induction n with
  | zero => exact ⟨rfl, rfl⟩
  | succ n ih =>
    have h1 : expandFuel (n + 1) cycDB 1 =
        (match expandFuel n cycDB 2 with
         | none => none
         | some sc => some (({1} : Finset Nat) ∪ sc)) := rfl
    have h2 : expandFuel (n + 1) cycDB 2 =
        (match expandFuel n cycDB 1 with
         | none => none
         | some sc => some (({2} : Finset Nat) ∪ sc)) := rfl
    rw [h1, h2, ih.1, ih.2]
    exact ⟨rfl, rfl⟩

/-! ### Claim C1 -/

/-- C1 counterexample: the claim asserts that hierarchy expansion terminates
even on a cyclic stored graph thanks to an explicit visited-set guard.
`_get_activities_from_parent` has no visited set: on the stored graph
`cycDB`, where activity 1 is reachable from itself via child links, no
amount of fuel makes the traversal of activity 1 complete — the call never
returns a finite set. -/
theorem c1_no_visited_guard_cyclic_diverges :
    ¬ ∃ fuel s, expandFuel fuel cycDB 1 = some s := by
  rintro ⟨fuel, s, h⟩
  rw [(expandFuel_cycDB_none fuel).1] at h
  cases h

/-- C1 amended: hierarchy expansion terminates on every stored graph that is
acyclic, i.e. that admits a depth measure strictly decreasing from parent to
child (which the intended depth ≤ 3 invariant provides); fuel exceeding the
measure of the queried activity suffices.  There is no visited-set guard,
and on a cyclic graph the traversal does not terminate. -/
theorem c1_expand_terminates_on_acyclic (db : List ActivityRow) (d : Nat → Nat)
    (h : measureOk db d = true) (a : Nat) :
    ∃ s, expandFuel (d a + 1) db a = some s :=
  expandFuel_total db d h (d a + 1) a (Nat.lt_succ_self _)

/-- C1 witness: the acyclicity measure hypothesis holds on the concrete
3-level forest, and the amended theorem applies to its root. -/
theorem c1_expand_terminates_on_acyclic_witness :
    measureOk forest3 forestMeasure = true ∧
      ∃ s, expandFuel (forestMeasure 1 + 1) forest3 1 = some s :=
  ⟨by decide, c1_expand_terminates_on_acyclic forest3 forestMeasure (by decide) 1⟩

/-! ### Claim C3 -/

/-- C3: whenever a call to `_get_activities_from_parent` completes, its
result is a set (a `Finset`, hence duplicate-free); if the queried
identifier does not resolve to a stored activity the result is the empty
set rather than an error, and otherwise the result contains exactly the
activity itself together with the members of the completed expansions of
each of its direct children. -/
theorem c3_expand_characterisation (db : List ActivityRow) (fuel a : Nat)
    (s : Finset Nat) (h : expandFuel (fuel + 1) db a = some s) :
    (findActivity db a = none → s = ∅) ∧
    (∀ r, findActivity db a = some r → ∀ x,
      x ∈ s ↔ x = a ∨ ∃ c ∈ childrenOf db a,
        ∃ sc, expandFuel fuel db c.uuid = some sc ∧ x ∈ sc) := by
  constructor
  · intro hf
    simp only [expandFuel, hf, Option.some.injEq] at h
    exact h.symm
  · intro r hf x
    simp only [expandFuel, hf] at h
    have hm := expandChildren_mem (fun u => expandFuel fuel db u)
      (childrenOf db a) {a} s h x
    simpa using hm

/-- C3 witness: on the concrete 3-level forest the expansion of the root
completes with a duplicate-free set, and the characterisation instantiates
at the root row and the grandchild 4. -/
theorem c3_expand_characterisation_witness :
    ∃ s, expandFuel (2 + 1) forest3 1 = some s ∧
      ((4 : Nat) ∈ s ↔ (4 : Nat) = 1 ∨
        ∃ c ∈ childrenOf forest3 1,
          ∃ sc, expandFuel 2 forest3 c.uuid = some sc ∧ 4 ∈ sc) := by
  refine ⟨_, rfl, ?_⟩
  exact (c3_expand_characterisation forest3 2 1 _ rfl).2 ⟨1, "root", none⟩ rfl 4

/-! ## Activity depth validation (app/models.py, class Activity)

`Activity.MAX_DEPTH = 3`; the `depth` property is
`1 + (self.parent.depth if self.parent else 0)`, and the
`@validates("parent")` hook `_validate_parent` raises when
`parent.depth + 1 > MAX_DEPTH`.  The hook is keyed on assignment to the
`parent` relationship attribute. -/

def MAX_DEPTH : Nat := 3

/-- The `depth` property of an activity row, with fuel for the recursive
walk up the `parent` relationship; `self.parent` is `None` when
`parent_uuid` is null or resolves to no stored row. -/
def depthFuel : Nat → List ActivityRow → ActivityRow → Option Nat
  | 0, _, _ => none
  | fuel + 1, db, r =>
    match r.parent_uuid with
    | none => some 1
    | some p =>
      match findActivity db p with
      | none => some 1
      | some pr => (depthFuel fuel db pr).map (· + 1)

/-- `_validate_parent` (app/models.py, lines 79-87): accepts a parent
assignment unless the parent's depth plus one exceeds `MAX_DEPTH`.
Returns `some false` when the hook would raise `ValueError`. -/
def validateParentOk (db : List ActivityRow) (parent : Option ActivityRow)
    (fuel : Nat) : Option Bool :=
  match parent with
  | none => some true
  | some pr => (depthFuel fuel db pr).map (fun dp => decide (dp + 1 ≤ MAX_DEPTH))

/-- The activity-creation path `create_activity` (app/views.py) →
`CRUD.create` (app/common.py) → `PostgresDatabase.create` (app/db.py):
the row is built as `Activity(**data.dict(exclude_none=True))` from the
payload's `name` and `parent_uuid` keys and inserted.  Because only the
`parent_uuid` column attribute is assigned — never the `parent`
relationship attribute — the `@validates("parent")` hook does not run, so
no depth check guards the insert. -/
def createActivity (db : List ActivityRow) (newUuid : Nat) (nm : String)
    (parent : Option Nat) : List ActivityRow :=
  db ++ [⟨newUuid, nm, parent⟩]

/-- A stored parent chain of exactly 3 levels: 1 ← 2 ← 3. -/
def chain3 : List ActivityRow :=
  [⟨1, "a", none⟩, ⟨2, "b", some 1⟩, ⟨3, "c", some 2⟩]

/-! ### Claim C2 -/

/-- C2: evaluation at the failing input.  Creating activity 4 with
`parent_uuid` pointing at the depth-3 node 3 is not rejected: the create
path inserts the row, producing a chain of depth 4, even though the
validator — had it been invoked on the `parent` relationship — would have
rejected that parent (`some false`), while a parent of depth 2 (chain of
exactly 3) would have passed (`some true`). -/
theorem c2_depth_check_bypassed_on_create :
    (⟨4, "d", some 3⟩ : ActivityRow) ∈ createActivity chain3 4 "d" (some 3) ∧
    depthFuel 4 (createActivity chain3 4 "d" (some 3)) ⟨4, "d", some 3⟩ = some 4 ∧
    validateParentOk chain3 (some ⟨3, "c", some 2⟩) 4 = some false ∧
    validateParentOk chain3 (some ⟨2, "b", some 1⟩) 4 = some true := by
  decide

/-! ## Geo search (app/views.py, get_buildings_in_area /
get_organizations_in_area)

Coordinates are modelled as rationals.  `models.py` declares `Building`
with columns `uuid`, `address`, `latitude`, `longitude` — there is no
`location` column, so the attribute lookup `Building.location` performed
while constructing either spatial query raises `AttributeError`. -/

structure BuildingRow where
  uuid : Nat
  address : String
  latitude : ℚ
  longitude : ℚ
deriving DecidableEq, Repr

structure OrgRow where
  uuid : Nat
  name : String
  building_uuid : Option Nat
deriving DecidableEq, Repr

inductive GeoErr where
  | invalidQuery
  | attributeError
deriving DecidableEq, Repr

/-- Python truthiness of an optional float bound, as used by
`all([min_lat, max_lat, min_lng, max_lng])`: `None` and `0.0` are falsy. -/
def truthy : Option ℚ → Bool
  | none => false
  | some q => q != 0

/-- The `location` column accessor of the `Building` model.  `models.py`
defines only `uuid`, `address`, `latitude` and `longitude`, so `getattr`
on `location` fails: there is no accessor. -/
def buildingLocation : Option (BuildingRow → ℚ × ℚ) := none

/-- `get_buildings_in_area` (app/views.py, lines 62-94).  `geodist` stands
for the PostGIS geography distance used by `ST_DWithin` (geodesic, in
meters).  The two guard clauses mirror the source: a 400 `InvalidQuery`
when `radius` is absent and the four box bounds are not all truthy, and a
400 `InvalidQuery` when `radius` is present but `lat` or `lng` is absent.
Past the guards, both query shapes dereference `Building.location`
(point x = longitude, y = latitude), which the model does not define. -/
def getBuildingsInArea (geodist : ℚ × ℚ → ℚ × ℚ → ℚ) (db : List BuildingRow)
    (lat lng radius min_lat max_lat min_lng max_lng : Option ℚ) :
    Except GeoErr (List BuildingRow) :=
  if radius.isNone &&
      !(truthy min_lat && truthy max_lat && truthy min_lng && truthy max_lng) then
    .error .invalidQuery
  else if radius.isSome && (lat.isNone || lng.isNone) then
    .error .invalidQuery
  else
    match buildingLocation with
    | none => .error .attributeError
    | some loc =>
      match radius with
      | some r =>
        .ok (db.filter (fun b =>
          decide (geodist (loc b) (lng.getD 0, lat.getD 0) ≤ r)))
      | none =>
        .ok (db.filter (fun b =>
          decide (min_lat.getD 0 ≤ (loc b).2 ∧ (loc b).2 ≤ max_lat.getD 0 ∧
            min_lng.getD 0 ≤ (loc b).1 ∧ (loc b).1 ≤ max_lng.getD 0)))

/-- `get_organizations_in_area` (app/views.py, lines 251-281): resolve the
buildings in the area, short-circuit to `[]` when none, otherwise return
the organizations whose `building_uuid` is in the resolved identifier set
(SQL `IN`, false on a null reference). -/
def getOrganizationsInArea (geodist : ℚ × ℚ → ℚ × ℚ → ℚ)
    (bdb : List BuildingRow) (odb : List OrgRow) (lat lng : ℚ)
    (radius min_lat max_lat min_lng max_lng : Option ℚ) :
    Except GeoErr (List OrgRow) :=
  match getBuildingsInArea geodist bdb (some lat) (some lng) radius
      min_lat max_lat min_lng max_lng with
  | .error e => .error e
  | .ok buildings =>
    if buildings.isEmpty then .ok []
    else
      let building_uuids := buildings.map (·.uuid)
      .ok (odb.filter (fun o =>
        match o.building_uuid with
        | some b => building_uuids.contains b
        | none => false))

/-! ### Claim C4 -/

/-- C4: evaluation at the failing input.  A radius search centred exactly
on a stored building — which the claim says must return that building for
radius 1 — instead fails: the `Building` model has no `location` column,
so constructing the `ST_DWithin` query raises `AttributeError`, whatever
distance function the database would have applied. -/
theorem c4_radius_search_raises_attribute_error :
    ∀ geodist : ℚ × ℚ → ℚ × ℚ → ℚ,
      getBuildingsInArea geodist [⟨1, "addr", 55.75, 37.61⟩]
        (some 55.75) (some 37.61) (some 1) none none none none =
      .error .attributeError := by
  intro geodist
  rfl

/-! ### Claim C5 -/

/-- C5: the guard clauses of `get_buildings_in_area`.  If `radius` is
absent and any of the four box bounds is absent (in particular when no
mode's parameters are supplied at all), the call fails with the
invalid-query error; if `radius` is supplied and either centre coordinate
is absent, the call likewise fails with the invalid-query error. -/
theorem c5_mode_parameter_guards (geodist : ℚ × ℚ → ℚ × ℚ → ℚ)
    (db : List BuildingRow) (lat lng radius b1 b2 b3 b4 : Option ℚ) :
    (radius = none ∧ (b1 = none ∨ b2 = none ∨ b3 = none ∨ b4 = none) →
      getBuildingsInArea geodist db lat lng radius b1 b2 b3 b4 =
        .error .invalidQuery) ∧
    (radius ≠ none ∧ (lat = none ∨ lng = none) →
      getBuildingsInArea geodist db lat lng radius b1 b2 b3 b4 =
        .error .invalidQuery) := by
  constructor
  · rintro ⟨rfl, hb⟩
    have hT : (truthy b1 && truthy b2 && truthy b3 && truthy b4) = false := by
      rcases hb with rfl | rfl | rfl | rfl <;> simp [truthy]
    simp [getBuildingsInArea, hT]
  · rintro ⟨hr, hc⟩
    obtain ⟨r, rfl⟩ := Option.ne_none_iff_exists'.mp hr
    rcases hc with rfl | rfl <;> simp [getBuildingsInArea]

/-- C5 witness: a call supplying no mode at all, and a call supplying a
radius without the centre longitude, both fail with the invalid-query
error. -/
theorem c5_mode_parameter_guards_witness :
    (getBuildingsInArea (fun _ _ => 0) [] none none none none none none none =
      .error .invalidQuery) ∧
    (getBuildingsInArea (fun _ _ => 0) [] (some 1) none (some 5) (some 1)
        (some 2) (some 3) (some 4) =
      .error .invalidQuery) :=
  ⟨(c5_mode_parameter_guards (fun _ _ => 0) [] none none none none none none
      none).1 ⟨rfl, Or.inl rfl⟩,
   (c5_mode_parameter_guards (fun _ _ => 0) [] (some 1) none (some 5) (some 1)
      (some 2) (some 3) (some 4)).2 ⟨by simp, Or.inr rfl⟩⟩

/-! ### Claim C6 -/

/-- C6: evaluation at the failing input.  The organization-in-area search
first delegates to the building search, and that step always fails with
`AttributeError` (missing `Building.location`), so no organization query
is ever issued — here, an organization housed in the building at the
search centre is never returned. -/
theorem c6_org_area_search_raises_attribute_error :
    ∀ geodist : ℚ × ℚ → ℚ × ℚ → ℚ,
      getOrganizationsInArea geodist [⟨1, "addr", 55.75, 37.61⟩]
        [⟨7, "Acme", some 1⟩] 55.75 37.61 (some 1) none none none none =
      .error .attributeError := by
  intro geodist
  rfl

/-! ### Claim C10 -/

/-- C10: in a bounding-box request (no radius), a bound supplied as `0` is
falsy under the `all([...])` completeness check, so the request is
rejected with the invalid-query error even though all four bounds were
supplied. -/
theorem c10_zero_bound_treated_as_missing (geodist : ℚ × ℚ → ℚ × ℚ → ℚ)
    (db : List BuildingRow) (lat lng b2 b3 b4 : Option ℚ) :
    getBuildingsInArea geodist db lat lng none (some 0) b2 b3 b4 =
      .error .invalidQuery := by
  simp [getBuildingsInArea, truthy]

/-! ## Generic repository (app/db.py, PostgresDatabase)

`PostgresDatabase` is generic over the entity kind, so rows are modelled as
association lists from column name to value. -/

inductive Val where
  | natV : Nat → Val
  | strV : String → Val
  | nullV : Val
deriving DecidableEq, Repr

abbrev Row := List (String × Val)

/-- `filter_by(**filters)`: every filter key's column equals the filter
value. -/
def rowMatches (filters : List (String × Val)) (r : Row) : Bool :=
  filters.all (fun kv => decide (List.lookup kv.1 r = some kv.2))

/-- The `values(**update_data)` clause of the UPDATE statement: each column
named in `update_data` is set to the supplied value, all other columns are
left as they are. -/
def applyUpdate (upd : List (String × Val)) (r : Row) : Row :=
  r.map (fun kv =>
    match List.lookup kv.1 upd with
    | some v => (kv.1, v)
    | none => kv)

/-- Effect of `update(model).filter_by(**filters).values(**update_data)` on
the stored table: matching rows are updated in place. -/
def updatedRows (rows : List Row) (filters upd : List (String × Val)) :
    List Row :=
  rows.map (fun r => if rowMatches filters r then applyUpdate upd r else r)

/-- `PostgresDatabase.update` (app/db.py, lines 119-158): the UPDATE is
executed and committed; with `return_updated` the value fetched through
`RETURNING` is discarded and overwritten by a fresh
`select(model).filter_by(**filters)` against the post-update table, whose
`.first()` is returned. -/
def pgUpdate (rows : List Row) (filters upd : List (String × Val))
    (return_updated : Bool) : List Row × Option Row :=
  if return_updated then
    (updatedRows rows filters upd,
      ((updatedRows rows filters upd).filter (rowMatches filters)).head?)
  else
    (updatedRows rows filters upd, none)

theorem lookup_applyUpdate (upd : List (String × Val)) (k : String) :
    ∀ r : Row, List.lookup k (applyUpdate upd r) =
      (List.lookup k r).map (fun v => (List.lookup k upd).getD v) := by
  intro r
  induction r with
  | nil => rfl
  | cons kv r ih =>
    obtain ⟨k', v'⟩ := kv
    have hcons : applyUpdate upd ((k', v') :: r) =
        (match List.lookup k' upd with
         | some v => (k', v)
         | none => (k', v')) :: applyUpdate upd r := rfl
    rw [hcons]
    by_cases hk : k = k'
    · subst hk
      cases hu : List.lookup k upd <;> simp [List.lookup, hu]
    · have hb : (k == k') = false := beq_eq_false_iff_ne.mpr hk
      cases hu : List.lookup k' upd <;> simp [List.lookup, hb, ih]

theorem rowMatches_lookup {filters : List (String × Val)} {r : Row}
    {f : String} {v : Val} (h : rowMatches filters r = true)
    (hf : (f, v) ∈ filters) : List.lookup f r = some v :=
  of_decide_eq_true (List.all_eq_true.mp h (f, v) hf)

/-! ### Claim C9 -/

/-- C9: with `return_updated`, the returned entity comes from a fresh
select with the original filters issued after the update is committed.
When the update rewrites a filtered field to a new value, no row of the
post-update table matches the stale filters any more, so the call returns
`none` — even though the matching row really was updated in the stored
table. -/
theorem c9_update_return_reselects_with_stale_filters
    (rows : List Row) (filters upd : List (String × Val))
    (f : String) (oldv newv : Val) (r : Row)
    (hf : (f, oldv) ∈ filters) (hu : List.lookup f upd = some newv)
    (hne : newv ≠ oldv) (hr : r ∈ rows) (hm : rowMatches filters r = true) :
    (pgUpdate rows filters upd true).2 = none ∧
    applyUpdate upd r ∈ (pgUpdate rows filters upd true).1 := by
  have hnil : (updatedRows rows filters upd).filter (rowMatches filters) = [] := by
    rw [List.filter_eq_nil_iff]
    intro x hx
    obtain ⟨r', hr', rfl⟩ := List.mem_map.mp hx
    by_cases h' : rowMatches filters r' = true
    · rw [if_pos h']
      intro hx2
      have h1 : List.lookup f (applyUpdate upd r') = some oldv :=
        rowMatches_lookup hx2 hf
      have h2 : List.lookup f r' = some oldv := rowMatches_lookup h' hf
      rw [lookup_applyUpdate, h2] at h1
      simp only [Option.map_some', hu, Option.getD_some, Option.some.injEq] at h1
      exact hne h1
    · rw [if_neg h']
      simp [h']
  constructor
  · simp [pgUpdate, hnil]
  · have hmem := List.mem_map_of_mem
      (fun r => if rowMatches filters r then applyUpdate upd r else r) hr
    simpa [pgUpdate, updatedRows, hm] using hmem

/-- A stored phone row (app/models.py, class Phone). -/
def phoneRow : Row := [("id", Val.natV 1), ("number", Val.strV "123")]

/-- C9 witness: updating the phone number looked up by its own value —
filters and update both on `number` — returns `none` while the stored row
is rewritten. -/
theorem c9_update_return_reselects_with_stale_filters_witness :
    (("number", Val.strV "123") ∈
        ([("number", Val.strV "123")] : List (String × Val)) ∧
      List.lookup "number" [("number", Val.strV "456")] =
        some (Val.strV "456") ∧
      Val.strV "456" ≠ Val.strV "123" ∧
      phoneRow ∈ [phoneRow] ∧
      rowMatches [("number", Val.strV "123")] phoneRow = true) ∧
    ((pgUpdate [phoneRow] [("number", Val.strV "123")]
        [("number", Val.strV "456")] true).2 = none ∧
      applyUpdate [("number", Val.strV "456")] phoneRow ∈
        (pgUpdate [phoneRow] [("number", Val.strV "123")]
          [("number", Val.strV "456")] true).1) :=
  ⟨⟨by decide, by decide, by decide, by decide, by decide⟩,
   c9_update_return_reselects_with_stale_filters [phoneRow]
     [("number", Val.strV "123")] [("number", Val.strV "456")]
     "number" (Val.strV "123") (Val.strV "456") phoneRow
     (by decide) (by decide) (by decide) (by decide) (by decide)⟩

/-! ## Organization update (app/common.py CRUD.update over app/models.py)

The stored state relevant to an organization update: the `organizations`
table and the two association tables. -/

structure DBState where
  organizations : List Row
  organization_activity : List (Nat × Nat)
  organization_phone : List (Nat × Nat)
deriving DecidableEq, Repr

/-- `CRUD.update` (app/common.py, lines 75-88) for `Organization`: the
update payload is `obj_in.model_dump(exclude_unset=True)` — only the
fields supplied in the request — and `PostgresDatabase.update` is invoked
with the filters mapping `uuid` to `id` and `return_updated=True`.  The single
UPDATE statement targets the `organizations` table only. -/
def updateOrganization (st : DBState) (id : Nat)
    (upd : List (String × Val)) : DBState × Option Row :=
  let res := pgUpdate st.organizations [("uuid", Val.natV id)] upd true
  ({ st with organizations := res.1 }, res.2)

/-! ### Claim C7 -/

/-- C7: a partial update supplying only `name` (payload
`[("name", v)]`, the dump of a request that set only that field) leaves
the `organization_activity` and `organization_phone` association tables
unchanged, leaves every column other than `name` of every row unchanged,
and sets `name` on the rows it rewrites. -/
theorem c7_partial_update_only_supplied_fields_change
    (st : DBState) (id : Nat) (v : String) (r : Row) (k : String) (w : Val)
    (hk : k ≠ "name") (hw : List.lookup "name" r = some w) :
    ((updateOrganization st id [("name", Val.strV v)]).1.organization_activity =
      st.organization_activity) ∧
    ((updateOrganization st id [("name", Val.strV v)]).1.organization_phone =
      st.organization_phone) ∧
    List.lookup k (applyUpdate [("name", Val.strV v)] r) = List.lookup k r ∧
    List.lookup "name" (applyUpdate [("name", Val.strV v)] r) =
      some (Val.strV v) := by
  refine ⟨rfl, rfl, ?_, ?_⟩
  · have hb : (k == "name") = false := beq_eq_false_iff_ne.mpr hk
    rw [lookup_applyUpdate]
    cases List.lookup k r <;> simp [List.lookup, hb]
  · rw [lookup_applyUpdate, hw]
    simp [List.lookup]

/-- A stored organization row together with one activity association and
one phone association. -/
def orgState : DBState where
  organizations := [[("uuid", Val.natV 9), ("name", Val.strV "Acme"),
    ("building_uuid", Val.natV 1)]]
  organization_activity := [(9, 4)]
  organization_phone := [(9, 1)]

/-- C7 witness: renaming organization 9 leaves both association tables and
its `building_uuid` column unchanged while its `name` becomes the new
value. -/
theorem c7_partial_update_only_supplied_fields_change_witness :
    ("building_uuid" ≠ "name" ∧
      List.lookup "name" [("uuid", Val.natV 9), ("name", Val.strV "Acme"),
        ("building_uuid", Val.natV 1)] = some (Val.strV "Acme")) ∧
    (((updateOrganization orgState 9 [("name", Val.strV "Acme2")]).1.organization_activity =
        orgState.organization_activity) ∧
      ((updateOrganization orgState 9 [("name", Val.strV "Acme2")]).1.organization_phone =
        orgState.organization_phone) ∧
      List.lookup "building_uuid" (applyUpdate [("name", Val.strV "Acme2")]
        [("uuid", Val.natV 9), ("name", Val.strV "Acme"),
         ("building_uuid", Val.natV 1)]) =
        List.lookup "building_uuid" [("uuid", Val.natV 9),
          ("name", Val.strV "Acme"), ("building_uuid", Val.natV 1)] ∧
      List.lookup "name" (applyUpdate [("name", Val.strV "Acme2")]
        [("uuid", Val.natV 9), ("name", Val.strV "Acme"),
         ("building_uuid", Val.natV 1)]) = some (Val.strV "Acme2")) :=
  ⟨⟨by decide, by decide⟩,
   c7_partial_update_only_supplied_fields_change orgState 9 "Acme2"
     [("uuid", Val.natV 9), ("name", Val.strV "Acme"),
      ("building_uuid", Val.natV 1)]
     "building_uuid" (Val.strV "Acme") (by decide) (by decide)⟩

/-! ## fetch_many (app/db.py, lines 84-117) -/

/-- Character-list matching of `needle` at the head of the second list. -/
def sublistAt : List Char → List Char → Bool
  | [], _ => true
  | _ :: _, [] => false
  | a :: as, b :: bs => a == b && sublistAt as bs

/-- Character-list substring search. -/
def hasSublist (needle : List Char) : List Char → Bool
  | [] => needle.isEmpty
  | b :: bs => sublistAt needle (b :: bs) || hasSublist needle bs

/-- The ilike pattern built from `name`, surrounded by percent wildcards:
case-insensitive substring match. -/
def strContainsCI (hay needle : String) : Bool :=
  hasSublist needle.toLower.data hay.toLower.data

/-- Column comparison for `order_by` ascending, on optional column values
(`NULL`s and heterogeneous values ordered arbitrarily but totally). -/
def valLe : Val → Val → Bool
  | .natV a, .natV b => decide (a ≤ b)
  | .strV a, .strV b => decide (a ≤ b)
  | .nullV, _ => true
  | _, .nullV => false
  | .natV _, .strV _ => true
  | .strV _, .natV _ => false

def optValLe : Option Val → Option Val → Bool
  | none, _ => true
  | some _, none => false
  | some a, some b => valLe a b

def keyLe (col : String) (a b : Row) : Bool :=
  optValLe (List.lookup col a) (List.lookup col b)

/-- The columns of the `Organization` model (app/models.py). -/
def orgColumns : List String := ["uuid", "name", "building_uuid"]

/-- `PostgresDatabase.fetch_many` (app/db.py, lines 84-117): an optional
case-insensitive substring filter on `name` (skipped for a falsy value),
optional exact-match filters, many-to-many join filters (each given here
as the row predicate its join imposes; the claims exercise it empty),
optional single-column ordering — `getattr(model, order_by, None)`
resolves the column against the model's column set, descending when
`sort_order == "DESC"` — and `OFFSET skip LIMIT limit` pagination. -/
def fetchMany (cols : List String) (rows : List Row)
    (filters : List (String × Val)) (m2m : List (Row → Bool))
    (nameSub : Option String) (skip limit : Nat)
    (order_by : Option String) (sort_order : String) : List Row :=
  let s1 := match nameSub with
    | some n =>
      if n ≠ "" then
        rows.filter (fun r =>
          match List.lookup "name" r with
          | some (Val.strV s) => strContainsCI s n
          | _ => false)
      else rows
    | none => rows
  let s2 := if filters.isEmpty then s1 else s1.filter (rowMatches filters)
  let s3 := m2m.foldl (fun acc p => acc.filter p) s2
  let s4 := match order_by with
    | some col =>
      if cols.contains col then
        if sort_order = "DESC" then s3.mergeSort (fun a b => keyLe col b a)
        else s3.mergeSort (keyLe col)
      else s3
    | none => s3
  (s4.drop skip).take limit

/-! ### Claim C8 -/

/-- C8: over a fixed stored collection whose rows are pairwise distinct
(as rows of a table with a primary key are) and the fixed ordering
`order_by=name` ascending, the page `skip=0, limit=2` and the page
`skip=2, limit=2` are disjoint, and their concatenation is a prefix of the
full ordered result. -/
theorem c8_pagination_disjoint_and_prefix (rows : List Row)
    (h : rows.Nodup) :
    (∀ r ∈ fetchMany orgColumns rows [] [] none 0 2 (some "name") "ASC",
      r ∉ fetchMany orgColumns rows [] [] none 2 2 (some "name") "ASC") ∧
    ∃ t, fetchMany orgColumns rows [] [] none 0 2 (some "name") "ASC" ++
        fetchMany orgColumns rows [] [] none 2 2 (some "name") "ASC" ++ t =
      fetchMany orgColumns rows [] [] none 0 rows.length
        (some "name") "ASC" := by
  have hred : ∀ skip limit,
      fetchMany orgColumns rows [] [] none skip limit (some "name") "ASC" =
        ((rows.mergeSort (keyLe "name")).drop skip).take limit := by
    intro skip limit
    rfl
  have hperm : List.Perm (rows.mergeSort (keyLe "name")) rows :=
    List.mergeSort_perm rows (keyLe "name")
  have hnd : (rows.mergeSort (keyLe "name")).Nodup := hperm.nodup_iff.mpr h
  have hsplit := List.take_append_drop 2 (rows.mergeSort (keyLe "name"))
  have hdisj : ∀ r ∈ (rows.mergeSort (keyLe "name")).take 2,
      r ∉ (rows.mergeSort (keyLe "name")).drop 2 := by
    rw [← hsplit] at hnd
    exact fun r hr hr' => (List.nodup_append.mp hnd).2.2 hr hr'
  constructor
  · intro r hr hr'
    rw [hred] at hr hr'
    exact hdisj r (by simpa using hr) (List.take_subset 2 _ hr')
  · refine ⟨(rows.mergeSort (keyLe "name")).drop 4, ?_⟩
    rw [hred, hred, hred, List.drop_zero, ← List.take_add]
    have hlen : rows.length = (rows.mergeSort (keyLe "name")).length :=
      hperm.length_eq.symm
    rw [hlen, List.take_length]
    exact List.take_append_drop 4 _

/-- A concrete stored collection of five organization rows with distinct
primary keys and unsorted names. -/
def orgRows5 : List Row :=
  [[("uuid", Val.natV 1), ("name", Val.strV "delta")],
   [("uuid", Val.natV 2), ("name", Val.strV "alpha")],
   [("uuid", Val.natV 3), ("name", Val.strV "echo")],
   [("uuid", Val.natV 4), ("name", Val.strV "bravo")],
   [("uuid", Val.natV 5), ("name", Val.strV "charlie")]]

/-- C8 witness: the two pages over the concrete collection are disjoint
and concatenation-complete. -/
theorem c8_pagination_disjoint_and_prefix_witness :
    orgRows5.Nodup ∧
    ((∀ r ∈ fetchMany orgColumns orgRows5 [] [] none 0 2 (some "name") "ASC",
      r ∉ fetchMany orgColumns orgRows5 [] [] none 2 2 (some "name") "ASC") ∧
    ∃ t, fetchMany orgColumns orgRows5 [] [] none 0 2 (some "name") "ASC" ++
        fetchMany orgColumns orgRows5 [] [] none 2 2 (some "name") "ASC" ++ t =
      fetchMany orgColumns orgRows5 [] [] none 0 orgRows5.length
        (some "name") "ASC") :=
  ⟨by decide, c8_pagination_disjoint_and_prefix orgRows5 (by decide)⟩

end Organisations
